import Mathlib

/-
Verification of the PulseTrader indicator engine against its design
specification.  Python sources are shallowly embedded: pandas series become
lists of rationals, IEEE float special values (NaN and the infinities,
which the sources rely on for division by zero) become the inductive type
FVal, and operations that can raise return Option.
-/

namespace PulseTrader

/-- IEEE-style value used by the numpy/pandas computations: a rational
number, positive or negative infinity, or NaN.  Rational arithmetic stands
in for exact float arithmetic; only the special values matter for the
claims below. -/
inductive FVal where
  | nan : FVal
  | pinf : FVal
  | ninf : FVal
  | fin : ℚ → FVal
deriving DecidableEq

/-- IEEE addition on FVal. -/
def fadd : FVal → FVal → FVal
  | .nan, _ => .nan
  | _, .nan => .nan
  | .pinf, .ninf => .nan
  | .ninf, .pinf => .nan
  | .pinf, _ => .pinf
  | _, .pinf => .pinf
  | .ninf, _ => .ninf
  | _, .ninf => .ninf
  | .fin a, .fin b => .fin (a + b)

/-- IEEE subtraction on FVal. -/
def fsub : FVal → FVal → FVal
  | .nan, _ => .nan
  | _, .nan => .nan
  | .pinf, .pinf => .nan
  | .ninf, .ninf => .nan
  | .pinf, _ => .pinf
  | _, .pinf => .ninf
  | .ninf, _ => .ninf
  | _, .ninf => .pinf
  | .fin a, .fin b => .fin (a - b)

/-- IEEE multiplication on FVal. -/
def fmul : FVal → FVal → FVal
  | .nan, _ => .nan
  | _, .nan => .nan
  | .pinf, .pinf => .pinf
  | .pinf, .ninf => .ninf
  | .ninf, .pinf => .ninf
  | .ninf, .ninf => .pinf
  | .pinf, .fin b => if b = 0 then .nan else if 0 < b then .pinf else .ninf
  | .fin a, .pinf => if a = 0 then .nan else if 0 < a then .pinf else .ninf
  | .ninf, .fin b => if b = 0 then .nan else if 0 < b then .ninf else .pinf
  | .fin a, .ninf => if a = 0 then .nan else if 0 < a then .ninf else .pinf
  | .fin a, .fin b => .fin (a * b)

/-- IEEE division on FVal: finite / 0 yields a signed infinity, 0 / 0
yields NaN, exactly as numpy float division behaves. -/
def fdiv : FVal → FVal → FVal
  | .nan, _ => .nan
  | _, .nan => .nan
  | .pinf, .pinf => .nan
  | .pinf, .ninf => .nan
  | .ninf, .pinf => .nan
  | .ninf, .ninf => .nan
  | .pinf, .fin b => if 0 ≤ b then .pinf else .ninf
  | .ninf, .fin b => if 0 ≤ b then .ninf else .pinf
  | .fin _, .pinf => .fin 0
  | .fin _, .ninf => .fin 0
  | .fin a, .fin b =>
      if b = 0 then (if a = 0 then .nan else if 0 < a then .pinf else .ninf)
      else .fin (a / b)

/-- IEEE strict greater-than: every comparison against NaN is false. -/
def fgt : FVal → FVal → Bool
  | .fin a, .fin b => decide (b < a)
  | .pinf, .fin _ => true
  | .pinf, .ninf => true
  | .fin _, .ninf => true
  | _, _ => false

/-- IEEE strict less-than: every comparison against NaN is false. -/
def flt : FVal → FVal → Bool
  | .fin a, .fin b => decide (a < b)
  | .ninf, .fin _ => true
  | .ninf, .pinf => true
  | .fin _, .pinf => true
  | _, _ => false

/-- Rounding to one decimal place, as pandas round(1) does on a finite
value.  Ties are immaterial for every claim below. -/
def round1 (x : ℚ) : ℚ := (round (10 * x) : ℤ) / 10

/-- round(1) lifted to FVal: NaN and the infinities round to themselves. -/
def fround1 : FVal → FVal
  | .fin a => .fin (round1 a)
  | v => v

/-
Oscillator engine: rsi_component.py, calculate_rsi (lines 5 to 37).
The close column is a list of rationals.  pandas diff gives NaN at
index 0; delta.where(delta > 0, 0) turns that NaN into 0 because
NaN > 0 is false, so the gain and loss series are plain rationals.
-/

/-- Gain series: delta.where(delta > 0, 0) of rsi_component.calculate_rsi. -/
def diffGains (closes : List ℚ) : List ℚ :=
  (List.range closes.length).map fun i =>
    if i = 0 then 0
    else
      let d := closes.getD i 0 - closes.getD (i - 1) 0
      if 0 < d then d else 0

/-- Loss series: -delta.where(delta < 0, 0) of rsi_component.calculate_rsi. -/
def diffLosses (closes : List ℚ) : List ℚ :=
  (List.range closes.length).map fun i =>
    if i = 0 then 0
    else
      let d := closes.getD i 0 - closes.getD (i - 1) 0
      if d < 0 then -d else 0

/-- Wilder smoothing of rsi_component.calculate_rsi: zero before the
warm-up index, seeded at index = period with the mean of the first
period + 1 values, then avg[i] = ((period - 1) * avg[i-1] + x[i]) / period. -/
def wilderAvg (xs : List ℚ) (period : ℕ) : ℕ → ℚ
  | 0 =>
    if period = 0 then (xs.take (period + 1)).sum / (period + 1) else 0
  | i + 1 =>
    if i + 1 < period then 0
    else if i + 1 = period then (xs.take (period + 1)).sum / (period + 1)
    else (((period : ℚ) - 1) * wilderAvg xs period i + xs.getD (i + 1) 0) / period

/-- One oscillator cell: rs = avg_gain / avg_loss and
rsi = 100 - 100 / (1 + rs), rounded to one decimal, with IEEE semantics
for the division (avg_loss = 0 gives infinity or NaN). -/
def rsiAt (closes : List ℚ) (period i : ℕ) : FVal :=
  let g := wilderAvg (diffGains closes) period i
  let l := wilderAvg (diffLosses closes) period i
  fround1 (fsub (.fin 100) (fdiv (.fin 100) (fadd (.fin 1) (fdiv (.fin g) (.fin l)))))

/-- rsi_component.calculate_rsi.  The assignment avg_gains[period] = ...
is an out-of-bounds numpy write whenever the input has at most period
rows, raising IndexError; this is modelled by returning none. -/
def calculate_rsi (closes : List ℚ) (period : ℕ) : Option (List FVal) :=
  if closes.length ≤ period then none
  else some ((List.range closes.length).map (rsiAt closes period))

lemma getD_nonneg {xs : List ℚ} (h : ∀ x ∈ xs, 0 ≤ x) (k : ℕ) : 0 ≤ xs.getD k 0 := by
  induction xs generalizing k with
  | nil => simp [List.getD]
  | cons a t ih =>
    cases k with
    | zero => exact h a (by simp)
    | succ n => simpa using ih (fun x hx => h x (by simp [hx])) n

lemma diffGains_nonneg (closes : List ℚ) : ∀ x ∈ diffGains closes, 0 ≤ x := by
  intro x hx
  rcases List.mem_map.mp hx with ⟨i, _, rfl⟩
  dsimp only
  split_ifs with h1 h2
  · exact le_refl 0
  · exact le_of_lt h2
  · exact le_refl 0

lemma diffLosses_nonneg (closes : List ℚ) : ∀ x ∈ diffLosses closes, 0 ≤ x := by
  intro x hx
  rcases List.mem_map.mp hx with ⟨i, _, rfl⟩
  dsimp only
  split_ifs with h1 h2
  · exact le_refl 0
  · linarith
  · exact le_refl 0

lemma wilderAvg_nonneg {xs : List ℚ} (h : ∀ x ∈ xs, 0 ≤ x) (period : ℕ) :
    ∀ i, 0 ≤ wilderAvg xs period i := by
  intro i
  induction i with
  | zero =>
    rw [wilderAvg]
    split_ifs
    · apply div_nonneg
      · exact List.sum_nonneg fun x hx => h x (List.mem_of_mem_take hx)
      · positivity
    · exact le_refl 0
  | succ n ih =>
    rw [wilderAvg]
    split_ifs with h1 h2
    · exact le_refl 0
    · apply div_nonneg
      · exact List.sum_nonneg fun x hx => h x (List.mem_of_mem_take hx)
      · positivity
    · rcases Nat.eq_zero_or_pos period with hp | hp
      · subst hp
        norm_num
      · apply div_nonneg
        · have hp1 : (1 : ℚ) ≤ (period : ℚ) := by exact_mod_cast hp
          have := getD_nonneg h (n + 1)
          nlinarith
        · positivity

lemma wilderAvg_eq_zero_of_lt (xs : List ℚ) {period i : ℕ} (h : i < period) :
    wilderAvg xs period i = 0 := by
  cases i with
  | zero =>
    rw [wilderAvg, if_neg]
    omega
  | succ n => rw [wilderAvg, if_pos h]

lemma wilderAvg_seed (xs : List ℚ) (period : ℕ) (h : 0 < period) :
    wilderAvg xs period period = (xs.take (period + 1)).sum / (period + 1) := by
  cases period with
  | zero => omega
  | succ n =>
    rw [wilderAvg]
    simp

lemma getD_zero {xs : List ℚ} (h : ∀ x ∈ xs, x = 0) (k : ℕ) : xs.getD k 0 = 0 := by
  induction xs generalizing k with
  | nil => simp [List.getD]
  | cons a t ih =>
    cases k with
    | zero => exact h a (by simp)
    | succ n => simpa using ih (fun x hx => h x (by simp [hx])) n

lemma wilderAvg_eq_zero {xs : List ℚ} (h : ∀ x ∈ xs, x = 0) (period : ℕ) :
    ∀ i, wilderAvg xs period i = 0 := by
  intro i
  induction i with
  | zero =>
    rw [wilderAvg]
    split_ifs
    · rw [List.sum_eq_zero fun x hx => h x (List.mem_of_mem_take hx), zero_div]
    · rfl
  | succ n ih =>
    rw [wilderAvg]
    split_ifs
    · rfl
    · rw [List.sum_eq_zero fun x hx => h x (List.mem_of_mem_take hx), zero_div]
    · rw [ih, getD_zero h, mul_zero, add_zero, zero_div]

lemma getD_replicate_val {c : ℚ} {n i : ℕ} (h : i < n) :
    (List.replicate n c).getD i 0 = c := by
  induction n generalizing i with
  | zero => omega
  | succ m ih =>
    cases i with
    | zero => simp [List.replicate_succ]
    | succ j => simpa [List.replicate_succ] using ih (by omega)

lemma diffGains_replicate (n : ℕ) (c : ℚ) :
    ∀ x ∈ diffGains (List.replicate n c), x = 0 := by
  intro x hx
  rcases List.mem_map.mp hx with ⟨i, hi, rfl⟩
  have hn : i < n := by simpa using hi
  dsimp only
  rcases Nat.eq_zero_or_pos i with h0 | h0
  · simp [h0]
  · have e1 : (List.replicate n c).getD i 0 = c := getD_replicate_val hn
    have e2 : (List.replicate n c).getD (i - 1) 0 = c := getD_replicate_val (by omega)
    rw [if_neg (Nat.pos_iff_ne_zero.mp h0)]
    simp only [e1, e2]
    simp

lemma diffLosses_replicate (n : ℕ) (c : ℚ) :
    ∀ x ∈ diffLosses (List.replicate n c), x = 0 := by
  intro x hx
  rcases List.mem_map.mp hx with ⟨i, hi, rfl⟩
  have hn : i < n := by simpa using hi
  dsimp only
  rcases Nat.eq_zero_or_pos i with h0 | h0
  · simp [h0]
  · have e1 : (List.replicate n c).getD i 0 = c := getD_replicate_val hn
    have e2 : (List.replicate n c).getD (i - 1) 0 = c := getD_replicate_val (by omega)
    rw [if_neg (Nat.pos_iff_ne_zero.mp h0)]
    simp only [e1, e2]
    simp

/-- When both running averages vanish the oscillator cell is 0/0 = NaN. -/
lemma rsiAt_of_avgs_zero {closes : List ℚ} {period i : ℕ}
    (hg : wilderAvg (diffGains closes) period i = 0)
    (hl : wilderAvg (diffLosses closes) period i = 0) :
    rsiAt closes period i = .nan := by
  simp [rsiAt, hg, hl, fdiv, fadd, fsub, fround1]

/-- Before the warm-up index both running averages are zero, so the
oscillator cell is 0/0 = NaN. -/
lemma rsiAt_of_lt_period (closes : List ℚ) {period i : ℕ} (h : i < period) :
    rsiAt closes period i = .nan :=
  rsiAt_of_avgs_zero (wilderAvg_eq_zero_of_lt _ h) (wilderAvg_eq_zero_of_lt _ h)

/-- Claim C1, amended: on an input with at most period rows the engine
does not return an all-undefined series of the same length; the numpy
write avg_gains[period] is out of bounds and the call raises (modelled as
none).  Only when the input has at least period + 1 rows does it return a
series of the input length, undefined on the warm-up cells. -/
theorem c1_short_history (closes : List ℚ) (period : ℕ) :
    (closes.length ≤ period → calculate_rsi closes period = none) ∧
    (period < closes.length →
      ∃ l, calculate_rsi closes period = some l ∧ l.length = closes.length ∧
        ∀ i, i < period → l.getD i .nan = .nan) := by
  constructor
  · intro h
    simp [calculate_rsi, h]
  · intro h
    refine ⟨(List.range closes.length).map (rsiAt closes period),
      by simp [calculate_rsi, Nat.not_le.mpr h], by simp, ?_⟩
    intro i hi
    have hi2 : i < closes.length := lt_trans hi h
    rw [List.getD_eq_getElem _ _ (by simpa using hi2)]
    simp only [List.getElem_map, List.getElem_range]
    exact rsiAt_of_lt_period closes hi

/-- A 13-bar close series, shorter than period + 1 = 15. -/
def closes13 : List ℚ := [10, 11, 12, 11, 10, 11, 12, 13, 12, 11, 10, 11, 12]

/-- Claim C1 counterexample: on 13 bars the oscillator engine does not
return a 13-cell all-undefined series; the out-of-bounds seed write makes
the call raise (none), contradicting the claimed no-error behaviour. -/
theorem c1_counterexample : calculate_rsi closes13 14 = none := by decide

/-- Witness for c1_short_history at the concrete 13-bar input. -/
theorem c1_witness : closes13.length ≤ 14 ∧ calculate_rsi closes13 14 = none :=
  ⟨by decide, (c1_short_history closes13 14).1 (by decide)⟩

/-- Claim C5, amended: at any bar, if the smoothed average loss is zero
and the smoothed average gain is nonzero, the oscillator saturates at
100.  When the average gain is zero as well (for instance on a constant
price series) the cell is 0/0 = NaN, not 100. -/
theorem c5_zero_loss_saturates (closes : List ℚ) (period i : ℕ)
    (hwarm : period ≤ i)
    (hloss : wilderAvg (diffLosses closes) period i = 0)
    (hgain : wilderAvg (diffGains closes) period i ≠ 0) :
    rsiAt closes period i = .fin 100 := by
  have h0 : 0 ≤ wilderAvg (diffGains closes) period i :=
    wilderAvg_nonneg (diffGains_nonneg closes) period i
  have hpos : 0 < wilderAvg (diffGains closes) period i :=
    lt_of_le_of_ne h0 (Ne.symm hgain)
  have hdiv : fdiv (.fin (wilderAvg (diffGains closes) period i)) (.fin 0) = .pinf := by
    simp [fdiv, hgain, hpos]
  rw [rsiAt]
  rw [hloss, hdiv]
  have h100 : round1 100 = 100 := by norm_num [round1]
  simp [fadd, fdiv, fsub, fround1, h100]

/-- A constant 15-bar close series: every delta is zero. -/
def const15 : List ℚ := List.replicate 15 10

/-- Claim C5 counterexample: on a constant series the average loss at the
warm-up bar is zero, yet the oscillator cell is NaN, not 100, because the
average gain is zero too and 0/0 propagates NaN. -/
theorem c5_counterexample :
    wilderAvg (diffLosses const15) 14 14 = 0 ∧ rsiAt const15 14 14 = .nan ∧
      rsiAt const15 14 14 ≠ .fin 100 := by
  have hall : ∀ x ∈ diffLosses const15, x = 0 := by
    rw [const15]
    exact diffLosses_replicate 15 10
  have hallg : ∀ x ∈ diffGains const15, x = 0 := by
    rw [const15]
    exact diffGains_replicate 15 10
  have hl : wilderAvg (diffLosses const15) 14 14 = 0 := wilderAvg_eq_zero hall 14 14
  have hg : wilderAvg (diffGains const15) 14 14 = 0 := wilderAvg_eq_zero hallg 14 14
  have hnan := rsiAt_of_avgs_zero hg hl
  exact ⟨hl, hnan, by simp [hnan]⟩

/-- A rising two-bar close series: losses vanish, gains do not. -/
def closesPair : List ℚ := [1, 2]

/-- Witness for c5_zero_loss_saturates, at the rising pair with period 1. -/
theorem c5_witness :
    1 ≤ 1 ∧ wilderAvg (diffLosses closesPair) 1 1 = 0 ∧
      wilderAvg (diffGains closesPair) 1 1 ≠ 0 ∧ rsiAt closesPair 1 1 = .fin 100 := by
  have hdl : diffLosses closesPair = [0, 0] := by
    norm_num [diffLosses, closesPair, List.range_succ]
  have hdg : diffGains closesPair = [0, 1] := by
    norm_num [diffGains, closesPair, List.range_succ]
  have hl : wilderAvg (diffLosses closesPair) 1 1 = 0 := by
    rw [hdl, wilderAvg_seed _ 1 one_pos]
    norm_num
  have hg : wilderAvg (diffGains closesPair) 1 1 ≠ 0 := by
    rw [hdg, wilderAvg_seed _ 1 one_pos]
    norm_num
  exact ⟨le_refl 1, hl, hg, c5_zero_loss_saturates closesPair 1 1 (le_refl 1) hl hg⟩

/-
Persistent store: stock_cache.py, StockDataCache.save_rsi_divergences
(lines 494 to 530).  The rsi_divergences table is modelled as a list of
rows, each a symbol key with an abstract payload; the DELETE statement is a
filter and executemany INSERT an append.  The guard
"if not divergences_data: return" exits before the DELETE when the new
row set is empty.
-/

/-- stock_cache.StockDataCache.save_rsi_divergences on the modelled
table. -/
def save_rsi_divergences (store : List (String × ℕ)) (symbol : String)
    (rows : List ℕ) : List (String × ℕ) :=
  if rows = [] then store
  else store.filter (fun r => r.1 != symbol) ++ rows.map (fun p => (symbol, p))

/-- Claim C2, amended: for a nonempty recomputed row set the operation
deletes every previously stored row for the symbol and leaves exactly the
new rows for it (rows of other symbols untouched); for the empty row set
the early return skips the DELETE and the store is left unchanged, old
rows included. -/
theorem c2_replace_divergences (store : List (String × ℕ)) (symbol : String)
    (rows : List ℕ) :
    (rows ≠ [] →
      (save_rsi_divergences store symbol rows).filter (fun r => r.1 == symbol) =
        rows.map (fun p => (symbol, p)) ∧
      (save_rsi_divergences store symbol rows).filter (fun r => r.1 != symbol) =
        store.filter (fun r => r.1 != symbol)) ∧
    (rows = [] → save_rsi_divergences store symbol rows = store) := by
  constructor
  · intro h
    rw [save_rsi_divergences, if_neg h]
    constructor
    · rw [List.filter_append]
      have h1 : (store.filter (fun r => r.1 != symbol)).filter (fun r => r.1 == symbol) = [] := by
        rw [List.filter_eq_nil_iff]
        intro a ha
        have := (List.mem_filter.mp ha).2
        simp only [bne_iff_ne] at this
        simp [this]
      have h2 : (rows.map (fun p => (symbol, p))).filter (fun r => r.1 == symbol) =
          rows.map (fun p => (symbol, p)) := by
        rw [List.filter_eq_self]
        intro a ha
        rcases List.mem_map.mp ha with ⟨p, _, rfl⟩
        simp
      rw [h1, h2, List.nil_append]
    · rw [List.filter_append]
      have h1 : (store.filter (fun r => r.1 != symbol)).filter (fun r => r.1 != symbol) =
          store.filter (fun r => r.1 != symbol) := by
        rw [List.filter_eq_self]
        intro a ha
        exact (List.mem_filter.mp ha).2
      have h2 : (rows.map (fun p => (symbol, p))).filter (fun r => r.1 != symbol) = [] := by
        rw [List.filter_eq_nil_iff]
        intro a ha
        rcases List.mem_map.mp ha with ⟨p, _, rfl⟩
        simp
      rw [h1, h2, List.append_nil]
  · intro h
    rw [save_rsi_divergences, if_pos h]

/-- Claim C2 counterexample: replacing the divergences of a symbol with
the empty recomputed set leaves the old row in the store, whereas the
claim requires the store to hold exactly the (zero) new rows for that
symbol. -/
theorem c2_counterexample :
    (save_rsi_divergences [("600519", 1)] "600519" []).filter
        (fun r => r.1 == "600519") ≠
      ([] : List ℕ).map (fun p => ("600519", p)) := by
  decide

/-- Witness for c2_replace_divergences with one old row and one new row. -/
theorem c2_witness :
    ([2] : List ℕ) ≠ [] ∧
      (save_rsi_divergences [("600519", 1)] "600519" [2]).filter
          (fun r => r.1 == "600519") =
        ([2] : List ℕ).map (fun p => ("600519", p)) :=
  ⟨by decide, ((c2_replace_divergences [("600519", 1)] "600519" [2]).1 (by decide)).1⟩

/-
Market data gateway: stock_data_provider.py.  period_mapping (lines 29 to
34) and the lookup days = period_mapping.get(period, 365) in
get_stock_data (line 74).
-/

/-- The period token to lookback-days lookup of
StockDataProvider.get_stock_data: dict get with default 365. -/
def period_mapping (p : String) : ℕ :=
  if p = "1年" then 365
  else if p = "半年" then 180
  else if p = "1季度" then 90
  else if p = "1月" then 30
  else 365

/-- Claim C10: any period token outside the four enumerated values is
accepted silently and resolves to the 365-day window, the same lookback
as the one-year token. -/
theorem c10_unknown_period_defaults (p : String)
    (h1 : p ≠ "1年") (h2 : p ≠ "半年") (h3 : p ≠ "1季度") (h4 : p ≠ "1月") :
    period_mapping p = 365 ∧ period_mapping p = period_mapping "1年" := by
  have hy : period_mapping "1年" = 365 := by simp [period_mapping]
  have hp : period_mapping p = 365 := by
    rw [period_mapping, if_neg h1, if_neg h2, if_neg h3, if_neg h4]
  exact ⟨hp, by rw [hp, hy]⟩

/-- Witness for c10_unknown_period_defaults at the unknown token for two
years. -/
theorem c10_witness :
    ("2年" : String) ≠ "1年" ∧ period_mapping "2年" = 365 :=
  ⟨by decide,
    (c10_unknown_period_defaults "2年" (by decide) (by decide) (by decide) (by decide)).1⟩

/-
Trend-band engine: supertrend_component.py, calculate_supertrend (lines
36 to 41).  The trend column is computed row by row from the close and
super_trend cells; a missing cell (None or NaN from the indicator warm-up)
makes both strict comparisons fail, giving direction 0.
-/

/-- The per-row trend lambda of supertrend_component.calculate_supertrend:
1 when both cells are present and close > super_trend, -1 when both are
present and close < super_trend, else 0. -/
def trend_direction (close super_trend : Option ℚ) : ℤ :=
  match close, super_trend with
  | some c, some s => if s < c then 1 else if c < s then -1 else 0
  | _, _ => 0

/-- The whole trend column, row by row over the close and band columns. -/
def calculate_supertrend_trend (closes bands : List (Option ℚ)) : List ℤ :=
  List.zipWith trend_direction closes bands

/-- Claim C9: the trend direction is a pure function of close and the
band value: +1 exactly when close is strictly above the band, -1 exactly
when strictly below, and 0 otherwise, in particular whenever either cell
is undefined. -/
theorem c9_trend_direction (c b : Option ℚ) :
    (trend_direction c b = 1 ↔ ∃ cv bv, c = some cv ∧ b = some bv ∧ bv < cv) ∧
    (trend_direction c b = -1 ↔ ∃ cv bv, c = some cv ∧ b = some bv ∧ cv < bv) ∧
    (trend_direction c b = 0 ↔
      c = none ∨ b = none ∨ ∃ v w, c = some v ∧ b = some w ∧ v = w) := by
  cases c with
  | none => simp [trend_direction]
  | some cv =>
    cases b with
    | none => simp [trend_direction]
    | some bv =>
      rcases lt_trichotomy bv cv with h | h | h
      · have hn : ¬ cv < bv := not_lt.mpr (le_of_lt h)
        simp [trend_direction, h, hn, ne_of_gt h]
      · subst h
        simp [trend_direction]
      · have hn : ¬ bv < cv := not_lt.mpr (le_of_lt h)
        simp [trend_direction, h, hn, ne_of_lt h]

/-
Divergence detector: rsi_component.py.  The three timeframes and the two
divergence kinds, modelled as closed enumerations for the string
discriminators used by the source.
-/

/-- The three extrema-detection timeframes of detect_rsi_divergence. -/
inductive Timeframe where
  | short : Timeframe
  | medium : Timeframe
  | long : Timeframe
deriving DecidableEq

/-- The two divergence kinds. -/
inductive DivType where
  | bearish : DivType
  | bullish : DivType
deriving DecidableEq

/-- Maximum of a price or oscillator slice, as pandas max on a nonempty
slice; the empty-slice value is never reached by the claims. -/
def listMax : List ℚ → ℚ
  | [] => 0
  | h :: t => t.foldl max h

/-- Minimum of a price or oscillator slice. -/
def listMin : List ℚ → ℚ
  | [] => 0
  | h :: t => t.foldl min h

/-- rsi_component.is_valid_divergence (lines 109 to 176).  The interval
slices are iloc[prev_idx : current_idx + 1]. -/
def is_valid_divergence (price rsi : List ℚ) (current_idx prev_idx : ℕ)
    (dt : DivType) (tf : Timeframe) : Bool :=
  let interval_price := (price.drop prev_idx).take (current_idx + 1 - prev_idx)
  let interval_rsi := (rsi.drop prev_idx).take (current_idx + 1 - prev_idx)
  let current_price := price.getD current_idx 0
  let prev_price := price.getD prev_idx 0
  let current_rsi := rsi.getD current_idx 0
  let prev_rsi := rsi.getD prev_idx 0
  match dt with
  | .bearish =>
    let price_condition := decide (prev_price * (1001/1000) < current_price)
    let rsi_condition := decide (current_rsi < prev_rsi * (995/1000))
    let rsi_range :=
      decide (55 ≤ max current_rsi prev_rsi ∧ max current_rsi prev_rsi ≤ 90)
    let rsi_overbought_crossed :=
      match tf with
      | .short => decide (60 ≤ listMax interval_rsi)
      | _ => decide (65 ≤ listMax interval_rsi)
    match tf with
    | .medium =>
      let price_proximity := decide (listMax interval_price * (98/100) ≤ current_price)
      price_condition && rsi_condition && rsi_range && rsi_overbought_crossed &&
        price_proximity
    | _ => price_condition && rsi_condition && rsi_range && rsi_overbought_crossed
  | .bullish =>
    let price_condition := decide (current_price < prev_price * (999/1000))
    let rsi_condition := decide (prev_rsi * (101/100) < current_rsi)
    let rsi_range :=
      decide (15 ≤ min current_rsi prev_rsi ∧ min current_rsi prev_rsi ≤ 45)
    let rsi_oversold_crossed :=
      match tf with
      | .short => decide (listMin interval_rsi ≤ 35)
      | _ => decide (listMin interval_rsi ≤ 30)
    match tf with
    | .medium =>
      let price_proximity := decide (current_price ≤ listMin interval_price * (102/100))
      price_condition && rsi_condition && rsi_range && rsi_oversold_crossed &&
        price_proximity
    | _ => price_condition && rsi_condition && rsi_range && rsi_oversold_crossed

/-- Overbought crossing threshold per timeframe for bearish validation:
60 for short, 65 for medium and long. -/
def overbought_threshold : Timeframe → ℚ
  | .short => 60
  | .medium => 65
  | .long => 65

/-- The bearish condition exactly as claim C3 states it, with the
oscillator band condition read as: at least one of the two oscillator
values lies in the closed band from 55 to 90. -/
def bearishClaimed (price rsi : List ℚ) (cur prev : ℕ) (tf : Timeframe) : Prop :=
  price.getD prev 0 * (1001/1000) < price.getD cur 0 ∧
  rsi.getD cur 0 < rsi.getD prev 0 * (995/1000) ∧
  ((55 ≤ rsi.getD cur 0 ∧ rsi.getD cur 0 ≤ 90) ∨
    (55 ≤ rsi.getD prev 0 ∧ rsi.getD prev 0 ≤ 90)) ∧
  overbought_threshold tf ≤ listMax ((rsi.drop prev).take (cur + 1 - prev)) ∧
  (tf = .medium →
    listMax ((price.drop prev).take (cur + 1 - prev)) * (98/100) ≤ price.getD cur 0)

/-- The bearish condition the code implements: the band condition is on
the LARGER of the two oscillator values, so it also forces the smaller
comparisons; the remaining conjuncts are as claimed. -/
def bearishAmended (price rsi : List ℚ) (cur prev : ℕ) (tf : Timeframe) : Prop :=
  price.getD prev 0 * (1001/1000) < price.getD cur 0 ∧
  rsi.getD cur 0 < rsi.getD prev 0 * (995/1000) ∧
  55 ≤ max (rsi.getD cur 0) (rsi.getD prev 0) ∧
  max (rsi.getD cur 0) (rsi.getD prev 0) ≤ 90 ∧
  overbought_threshold tf ≤ listMax ((rsi.drop prev).take (cur + 1 - prev)) ∧
  (tf = .medium →
    listMax ((price.drop prev).take (cur + 1 - prev)) * (98/100) ≤ price.getD cur 0)

/-- Claim C3, amended: bearish validation holds exactly when price rises
beyond the 0.1 percent margin, the oscillator falls beyond the 0.5
percent margin, the maximum of the two oscillator extrema lies in the
band from 55 to 90 (not merely one of them), the interval oscillator
maximum crosses the per-timeframe overbought threshold, and for the
medium timeframe the current price is within 2 percent of the interval
maximum price. -/
theorem c3_bearish_validation (price rsi : List ℚ) (cur prev : ℕ) (tf : Timeframe) :
    is_valid_divergence price rsi cur prev .bearish tf = true ↔
      bearishAmended price rsi cur prev tf := by
  cases tf <;>
    simp [is_valid_divergence, bearishAmended, overbought_threshold,
      Bool.and_eq_true, decide_eq_true_eq, and_assoc]

/-- Two-bar price series for the C3 counterexample. -/
def price2 : List ℚ := [100, 101]

/-- Two-bar oscillator series for the C3 counterexample: the earlier
peak sits at 95, above the band, the later at 70, inside the band. -/
def rsi2 : List ℚ := [95, 70]

/-- Claim C3 counterexample: with oscillator values 95 then 70 all the
claimed conditions hold (70 lies in the 55 to 90 band), yet the code
rejects the pair because max(70, 95) = 95 exceeds 90. -/
theorem c3_counterexample :
    bearishClaimed price2 rsi2 1 0 .short ∧
      is_valid_divergence price2 rsi2 1 0 .bearish .short = false := by
  constructor
  · refine ⟨?_, ?_, ?_, ?_, ?_⟩ <;>
      norm_num [bearishClaimed, price2, rsi2, overbought_threshold, listMax, max_def]
  · norm_num [is_valid_divergence, price2, rsi2, listMax, max_def]

/-
Confidence scoring: rsi_component.py, calculate_rsi_divergence_confidence
(lines 178 to 218) and the acceptance filter in detect_rsi_divergence
(confidence >= 35, lines 273 and 323).  The parameters fed by the
detector are time_diff = current_idx - prev_idx and
max_time_diff = 2 * window.
-/

/-- The per-timeframe time weights of calculate_rsi_divergence_confidence. -/
def time_weights : Timeframe → ℚ
  | .short => 1/4
  | .medium => 3/10
  | .long => 7/20

/-- The per-timeframe sliding-window sizes of detect_rsi_divergence. -/
def window_size : Timeframe → ℕ
  | .short => 20
  | .medium => 60
  | .long => 90

/-- The per-timeframe minimum extremum spacings of detect_rsi_divergence. -/
def min_distance_of : Timeframe → ℕ
  | .short => 5
  | .medium => 30
  | .long => 50

/-- The oscillator-level factor of calculate_rsi_divergence_confidence:
clamped to the unit interval, keyed on the divergence kind. -/
def rsi_factor (rsi_current rsi_previous : ℚ) : DivType → ℚ
  | .bearish => max 0 (min ((max rsi_current rsi_previous - 55) / 30) 1)
  | .bullish => max 0 (min ((45 - min rsi_current rsi_previous) / 30) 1)

/-- The trend-strength factor of calculate_rsi_divergence_confidence. -/
def trend_factor (rsi_current rsi_previous : ℚ) : ℚ :=
  min (|rsi_current - rsi_previous| / 30) 1

/-- rsi_component.calculate_rsi_divergence_confidence.  The transcendental
time factor exp(-time_diff / max_time_diff) is passed in as the already
evaluated rational time_factor; the lemma real_exp_neg_le below bounds the
true exponential by the hypothesis used in claim C4. -/
def calculate_rsi_divergence_confidence (time_factor rsi_current rsi_previous : ℚ)
    (dt : DivType) (tf : Timeframe) : ℚ :=
  round1 ((time_factor * time_weights tf +
    rsi_factor rsi_current rsi_previous dt * (35/100) +
    trend_factor rsi_current rsi_previous * (35/100)) * 100)

/-- The acceptance step of detect_rsi_divergence: an event is emitted
only when its confidence reaches 35. -/
def confidence_filter (c : ℚ) : Option ℚ := if 35 ≤ c then some c else none

/-- The exponential time factor is bounded by the rational bound used in
claim C4: exp(-x) is at most 1 / (1 + x) for nonnegative x. -/
lemma real_exp_neg_le (x : ℝ) (hx : 0 ≤ x) : Real.exp (-x) ≤ 1 / (1 + x) := by
  have h1 : (0:ℝ) < 1 + x := by linarith
  have h2 : 1 + x ≤ Real.exp x := by
    have := Real.add_one_le_exp x
    linarith
  rw [Real.exp_neg, one_div]
  exact inv_le_inv_of_le h1 h2

lemma round1_mono {x y : ℚ} (h : x ≤ y) : round1 x ≤ round1 y := by
  unfold round1
  have hr : round (10 * x) ≤ round (10 * y) := by
    rw [round_eq, round_eq]
    exact Int.floor_le_floor (by linarith)
  have h2 : ((round (10 * x) : ℤ) : ℚ) ≤ ((round (10 * y) : ℤ) : ℚ) := by
    exact_mod_cast hr
  linarith

lemma round1_100 : round1 100 = 100 := by norm_num [round1]

/-- Core bound: when the time term is at most 3/10 and both unit factors
are clamped to at most 1, the rounded confidence cannot exceed 100. -/
lemma conf_le_100 {a rf trf : ℚ} (ha : a ≤ 3/10)
    (hrf : rf ≤ 1) (htf : trf ≤ 1) :
    round1 ((a + rf * (35/100) + trf * (35/100)) * 100) ≤ 100 := by
  have hraw : (a + rf * (35/100) + trf * (35/100)) * 100 ≤ 100 := by nlinarith
  calc round1 ((a + rf * (35/100) + trf * (35/100)) * 100) ≤ round1 100 :=
        round1_mono hraw
    _ = 100 := round1_100

/-- Claim C4: every divergence event that passes the acceptance filter
has confidence between 35 and 100.  The extremum spacing hypothesis
reflects what find_peaks_troughs guarantees for consecutive extrema, and
the time-factor hypotheses hold for exp(-time_diff / (2 window)) by
real_exp_neg_le. -/
theorem c4_confidence_range (tf : Timeframe) (dt : DivType) (time_diff : ℕ)
    (rc rp time_factor c : ℚ)
    (hspace : min_distance_of tf ≤ time_diff)
    (h0 : 0 ≤ time_factor)
    (h1 : time_factor ≤ 1 / (1 + (time_diff : ℚ) / (2 * window_size tf)))
    (hemit : confidence_filter
      (calculate_rsi_divergence_confidence time_factor rc rp dt tf) = some c) :
    35 ≤ c ∧ c ≤ 100 := by
  unfold confidence_filter at hemit
  split_ifs at hemit with h35
  · cases hemit
    refine ⟨h35, ?_⟩
    have hd : (min_distance_of tf : ℚ) ≤ (time_diff : ℚ) := by exact_mod_cast hspace
    have hrf : rsi_factor rc rp dt ≤ 1 := by
      cases dt <;> exact max_le (by norm_num) (min_le_right _ _)
    have htf : trend_factor rc rp ≤ 1 := min_le_right _ _
    have harg : time_factor * time_weights tf ≤ 3/10 := by
      cases tf
      · simp only [min_distance_of, Nat.cast_ofNat] at hd
        simp only [window_size, time_weights, Nat.cast_ofNat] at h1 ⊢
        have hb : time_factor ≤ 8/9 := by
          refine h1.trans ?_
          have h2 : (9:ℚ)/8 ≤ 1 + (time_diff : ℚ) / (2 * 20) := by linarith
          calc 1 / (1 + (time_diff:ℚ) / (2 * 20)) ≤ 1 / ((9:ℚ)/8) :=
                one_div_le_one_div_of_le (by norm_num) h2
            _ = 8/9 := by norm_num
        nlinarith
      · simp only [min_distance_of, Nat.cast_ofNat] at hd
        simp only [window_size, time_weights, Nat.cast_ofNat] at h1 ⊢
        have hb : time_factor ≤ 4/5 := by
          refine h1.trans ?_
          have h2 : (5:ℚ)/4 ≤ 1 + (time_diff : ℚ) / (2 * 60) := by linarith
          calc 1 / (1 + (time_diff:ℚ) / (2 * 60)) ≤ 1 / ((5:ℚ)/4) :=
                one_div_le_one_div_of_le (by norm_num) h2
            _ = 4/5 := by norm_num
        nlinarith
      · simp only [min_distance_of, Nat.cast_ofNat] at hd
        simp only [window_size, time_weights, Nat.cast_ofNat] at h1 ⊢
        have hb : time_factor ≤ 18/23 := by
          refine h1.trans ?_
          have h2 : (23:ℚ)/18 ≤ 1 + (time_diff : ℚ) / (2 * 90) := by linarith
          calc 1 / (1 + (time_diff:ℚ) / (2 * 90)) ≤ 1 / ((23:ℚ)/18) :=
                one_div_le_one_div_of_le (by norm_num) h2
            _ = 18/23 := by norm_num
        nlinarith
    unfold calculate_rsi_divergence_confidence
    exact conf_le_100 harg hrf htf

/-- Witness for c4_confidence_range: a long-timeframe bearish pair 50
bars apart with oscillator values 90 and 20 and time factor 7/10 scores
exactly 94.5. -/
theorem c4_witness : 35 ≤ (94.5 : ℚ) ∧ (94.5 : ℚ) ≤ 100 :=
  c4_confidence_range .long .bearish 50 90 20 (7/10) 94.5
    (by norm_num [min_distance_of])
    (by norm_num)
    (by norm_num [window_size])
    (by norm_num [calculate_rsi_divergence_confidence, confidence_filter,
      time_weights, round1, rsi_factor, trend_factor, max_def, min_def, abs])

/-
Volume anomaly detector: volume_indicators.py, calculate_volume_indicators
(lines 26 to 87).  Bars are the date-sorted rows; the date itself is
irrelevant to the flags.  The rolling statistics use min_periods = 1, and
the gain percentages keep IEEE semantics (the first row has NaN
prev_close, so every comparison on it is false).
-/

/-- One input bar row: 开盘, 最高, 收盘, 成交量. -/
structure Bar where
  openPrice : ℚ
  highPrice : ℚ
  closePrice : ℚ
  volume : ℚ
deriving DecidableEq

instance : Inhabited Bar := ⟨⟨0, 0, 0, 0⟩⟩

/-- The 成交量 column. -/
def volumes (bars : List Bar) : List ℚ := bars.map (·.volume)

/-- The 最高 column. -/
def highs (bars : List Bar) : List ℚ := bars.map (·.highPrice)

/-- Rolling window ending at row i with width w and min_periods 1: the
last min(i + 1, w) values up to and including row i. -/
def rollWindow (xs : List ℚ) (w i : ℕ) : List ℚ := (xs.take (i + 1)).drop (i + 1 - w)

/-- Rolling maximum with min_periods 1. -/
def rollMax (xs : List ℚ) (w i : ℕ) : ℚ := listMax (rollWindow xs w i)

/-- Rolling minimum with min_periods 1. -/
def rollMin (xs : List ℚ) (w i : ℕ) : ℚ := listMin (rollWindow xs w i)

/-- Rolling mean with min_periods 1. -/
def rollMean (xs : List ℚ) (w i : ℕ) : ℚ :=
  (rollWindow xs w i).sum / (rollWindow xs w i).length

/-- vol_20d_max at row i. -/
def vol_20d_max (bars : List Bar) (i : ℕ) : ℚ := rollMax (volumes bars) 20 i

/-- vol_50d_min at row i. -/
def vol_50d_min (bars : List Bar) (i : ℕ) : ℚ := rollMin (volumes bars) 50 i

/-- vol_20d_avg at row i. -/
def vol_20d_avg (bars : List Bar) (i : ℕ) : ℚ := rollMean (volumes bars) 20 i

/-- high_20d_max at row i. -/
def high_20d_max (bars : List Bar) (i : ℕ) : ℚ := rollMax (highs bars) 20 i

/-- prev_close = 收盘.shift(1): NaN on the first row. -/
def prev_close (bars : List Bar) (i : ℕ) : FVal :=
  if i = 0 then .nan else .fin (bars.getD (i - 1) default).closePrice

/-- daily_gain_pct = (收盘 / prev_close - 1) * 100, IEEE semantics. -/
def daily_gain_pct (bars : List Bar) (i : ℕ) : FVal :=
  fmul (fsub (fdiv (.fin (bars.getD i default).closePrice) (prev_close bars i)) (.fin 1))
    (.fin 100)

/-- intraday_gain_pct = (收盘 / 开盘 - 1) * 100, IEEE semantics. -/
def intraday_gain_pct (bars : List Bar) (i : ℕ) : FVal :=
  fmul (fsub (fdiv (.fin (bars.getD i default).closePrice)
    (.fin (bars.getD i default).openPrice)) (.fin 1)) (.fin 100)

/-- price_condition: daily gain above 1.5 percent and intraday gain above
2 percent. -/
def price_condition (bars : List Bar) (i : ℕ) : Bool :=
  fgt (daily_gain_pct bars i) (.fin (3/2)) && fgt (intraday_gain_pct bars i) (.fin 2)

/-- near_20d_high: 收盘 / high_20d_max > 0.9. -/
def near_20d_high (bars : List Bar) (i : ℕ) : Bool :=
  fgt (fdiv (.fin (bars.getD i default).closePrice) (.fin (high_20d_max bars i)))
    (.fin (9/10))

/-- is_vol_20d_max: the volume equals the rolling 20-bar maximum. -/
def is_vol_20d_max (bars : List Bar) (i : ℕ) : Bool :=
  decide ((bars.getD i default).volume = vol_20d_max bars i)

/-- is_high_vol_bar: near the 20-day high, the 20-day maximum volume, and
the price gain conditions all at once. -/
def is_high_vol_bar (bars : List Bar) (i : ℕ) : Bool :=
  near_20d_high bars i && is_vol_20d_max bars i && price_condition bars i

/-- is_sky_vol_bar: high-volume and more than 3.5 times the rolling
20-bar average volume. -/
def is_sky_vol_bar (bars : List Bar) (i : ℕ) : Bool :=
  is_high_vol_bar bars i &&
    decide ((7/2) * vol_20d_avg bars i < (bars.getD i default).volume)

/-- is_low_vol_bar: the volume equals the rolling 50-bar minimum. -/
def is_low_vol_bar (bars : List Bar) (i : ℕ) : Bool :=
  decide ((bars.getD i default).volume = vol_50d_min bars i)

/-- Claim C8, amended: the low-volume and high-volume flags are not
mutually exclusive in general, but a bar at the rolling 50-bar volume
minimum that fails the gain conditions is flagged low-volume only, never
high-volume. -/
theorem c8_low_not_high (bars : List Bar) (i : ℕ)
    (hlow : is_low_vol_bar bars i = true)
    (hpc : price_condition bars i = false) :
    is_low_vol_bar bars i = true ∧ is_high_vol_bar bars i = false :=
  ⟨hlow, by simp [is_high_vol_bar, hpc]⟩

/-- Two bars with identical volumes and a strong second-day rally. -/
def barsBoth : List Bar := [⟨100, 100, 100, 5⟩, ⟨100, 112, 110, 5⟩]

/-- Claim C8 counterexample: on a constant-volume pair with a breakout
second bar, the second bar volume equals both the rolling 50-bar minimum
and the rolling 20-bar maximum while the gain conditions hold, so the bar
is flagged low-volume AND high-volume simultaneously. -/
theorem c8_counterexample :
    is_low_vol_bar barsBoth 1 = true ∧ is_high_vol_bar barsBoth 1 = true := by
  constructor
  · norm_num [is_low_vol_bar, vol_50d_min, rollMin, rollWindow, listMin,
      volumes, barsBoth, min_def]
  · norm_num [is_high_vol_bar, near_20d_high, is_vol_20d_max, price_condition,
      daily_gain_pct, intraday_gain_pct, prev_close, vol_20d_max, high_20d_max,
      rollMax, rollWindow, listMax, volumes, highs, barsBoth, fdiv, fmul, fsub,
      fgt, max_def]

/-- A single quiet bar: its volume is trivially the rolling minimum and
its NaN prev_close makes the gain conditions fail. -/
def barsQuiet : List Bar := [⟨10, 10, 10, 7⟩]

/-- Witness for c8_low_not_high at the single quiet bar. -/
theorem c8_witness :
    is_low_vol_bar barsQuiet 0 = true ∧ is_high_vol_bar barsQuiet 0 = false :=
  c8_low_not_high barsQuiet 0
    (by norm_num [is_low_vol_bar, vol_50d_min, rollMin, rollWindow, listMin,
      volumes, barsQuiet, min_def])
    (by norm_num [price_condition, daily_gain_pct, prev_close, barsQuiet,
      fdiv, fmul, fsub, fgt])

/-
Market data gateway refresh: stock_data_provider.py,
StockDataProvider._incremental_update (lines 161 to 187) and _full_update
(lines 189 to 198).  The upstream source is a function from day number to
an optional bar payload (none on non-trading days); a network fetch of a
window returns its bars in ascending date order, which is what the
akshare history endpoints deliver.  Dates are day numbers, the payload an
abstract rational.
-/

/-- A network fetch of the window from day s to day e inclusive. -/
def fetch_bars (src : ℕ → Option ℚ) (s e : ℕ) : List (ℕ × ℚ) :=
  (List.range' s (e + 1 - s)).filterMap fun d => (src d).map fun v => (d, v)

/-- drop_duplicates on the date column: keeps the first row of each date;
seen carries the dates already kept. -/
def dedupByDate : List (ℕ × ℚ) → List ℕ → List (ℕ × ℚ)
  | [], _ => []
  | r :: rs, seen =>
    if r.1 ∈ seen then dedupByDate rs seen else r :: dedupByDate rs (r.1 :: seen)

/-- sort_values on the date column (a stable sort). -/
def sortByDate (l : List (ℕ × ℚ)) : List (ℕ × ℚ) :=
  l.insertionSort (fun a b => a.1 ≤ b.1)

/-- StockDataProvider._full_update: one network fetch of the whole
window. -/
def full_update (src : ℕ → Option ℚ) (s e : ℕ) : List (ℕ × ℚ) :=
  fetch_bars src s e

/-- StockDataProvider._incremental_update with a cache covering the days
from s to m: fetch only the delta window from m + 1, merge with the
cached rows, de-duplicate by date, sort by date (skipped when the delta
is empty), and filter to the requested period start. -/
def incremental_update (src : ℕ → Option ℚ) (s m e : ℕ) : List (ℕ × ℚ) :=
  (if fetch_bars src (m + 1) e = [] then fetch_bars src s m
   else sortByDate (dedupByDate (fetch_bars src s m ++ fetch_bars src (m + 1) e) [])).filter
    fun r => decide (s ≤ r.1)

lemma fetch_bars_keys_sublist (src : ℕ → Option ℚ) (s e : ℕ) :
    List.Sublist ((fetch_bars src s e).map Prod.fst) (List.range' s (e + 1 - s)) := by
  unfold fetch_bars
  generalize List.range' s (e + 1 - s) = l
  induction l with
  | nil => simp
  | cons d t ih =>
    rw [List.filterMap_cons]
    cases h : src d with
    | none => exact ih.cons d
    | some v =>
      rw [Option.map_some', List.map_cons]
      exact ih.cons₂ d

lemma fetch_bars_keys_pairwise (src : ℕ → Option ℚ) (s e : ℕ) :
    ((fetch_bars src s e).map Prod.fst).Pairwise (· < ·) :=
  (List.pairwise_lt_range' s (e + 1 - s)).sublist (fetch_bars_keys_sublist src s e)

lemma fetch_bars_mem_le {src : ℕ → Option ℚ} {s e : ℕ} {r : ℕ × ℚ}
    (h : r ∈ fetch_bars src s e) : s ≤ r.1 := by
  unfold fetch_bars at h
  rcases List.mem_filterMap.mp h with ⟨d, hd, hmap⟩
  cases hsrc : src d with
  | none =>
    rw [hsrc] at hmap
    simp at hmap
  | some v =>
    rw [hsrc, Option.map_some', Option.some.injEq] at hmap
    subst hmap
    exact (List.mem_range'_1.mp hd).1

lemma dedupByDate_of_nodup :
    ∀ (l : List (ℕ × ℚ)) (seen : List ℕ), (l.map Prod.fst).Nodup →
      (∀ r ∈ l, r.1 ∉ seen) → dedupByDate l seen = l := by
  intro l
  induction l with
  | nil => intro seen _ _; rfl
  | cons r rs ih =>
    intro seen hnd hdisj
    have hnd2 : (r.1 :: rs.map Prod.fst).Nodup := by simpa using hnd
    rw [dedupByDate, if_neg (hdisj r (by simp))]
    congr 1
    apply ih
    · exact (List.nodup_cons.mp hnd2).2
    · intro x hx hmem
      rcases List.mem_cons.mp hmem with h1 | h2
      · exact (List.nodup_cons.mp hnd2).1 (h1 ▸ List.mem_map_of_mem Prod.fst hx)
      · exact hdisj x (by simp [hx]) h2

lemma sortByDate_eq_of_pairwise {l : List (ℕ × ℚ)}
    (h : (l.map Prod.fst).Pairwise (· < ·)) : sortByDate l = l := by
  apply List.Sorted.insertionSort_eq
  exact (List.pairwise_map.mp h).imp fun hab => le_of_lt hab

/-- Claim C6: with a cache holding exactly the days from s to m of the
window and m < e, the incremental refresh (delta fetch, merge,
de-duplicate, sort, period filter) returns exactly the bar list of a
single full fetch of the window, and that list has strictly increasing,
hence duplicate-free, dates. -/
theorem c6_incremental_merge (src : ℕ → Option ℚ) (s m e : ℕ)
    (h1 : s ≤ m) (h2 : m < e) :
    incremental_update src s m e = full_update src s e ∧
      ((full_update src s e).map Prod.fst).Pairwise (· < ·) := by
  have hkeys : ((fetch_bars src s e).map Prod.fst).Pairwise (· < ·) :=
    fetch_bars_keys_pairwise src s e
  have happend : fetch_bars src s m ++ fetch_bars src (m + 1) e = fetch_bars src s e := by
    unfold fetch_bars
    rw [← List.filterMap_append]
    congr 1
    have hr := List.range'_append_1 s (m + 1 - s) (e - m)
    rw [show s + (m + 1 - s) = m + 1 by omega] at hr
    rw [show e - m + (m + 1 - s) = e + 1 - s by omega] at hr
    rw [show e + 1 - (m + 1) = e - m by omega]
    exact hr
  have hfilter : ∀ l : List (ℕ × ℚ), (∀ r ∈ l, s ≤ r.1) →
      l.filter (fun r => decide (s ≤ r.1)) = l := by
    intro l hl
    apply List.filter_eq_self.mpr
    intro a ha
    simpa using hl a ha
  refine ⟨?_, hkeys⟩
  rw [incremental_update, full_update]
  by_cases hnew : fetch_bars src (m + 1) e = []
  · rw [if_pos hnew]
    have hfull : fetch_bars src s e = fetch_bars src s m := by
      rw [← happend, hnew, List.append_nil]
    rw [hfull]
    exact hfilter _ fun r hr => fetch_bars_mem_le hr
  · rw [if_neg hnew]
    have hnodup : ((fetch_bars src s m ++ fetch_bars src (m + 1) e).map Prod.fst).Nodup := by
      rw [happend]
      exact hkeys.imp fun hab => ne_of_lt hab
    rw [dedupByDate_of_nodup _ _ hnodup fun r _ => List.not_mem_nil r.1, happend,
      sortByDate_eq_of_pairwise hkeys]
    exact hfilter _ fun r hr => fetch_bars_mem_le hr

/-- A concrete source for the C6 witness: bars exist on even days only. -/
def srcEven : ℕ → Option ℚ := fun d => if d % 2 = 0 then some (d : ℚ) else none

/-- Witness for c6_incremental_merge: cache covering days 2 to 4 of the
window from 2 to 7. -/
theorem c6_witness :
    (2:ℕ) ≤ 4 ∧ (4:ℕ) < 7 ∧
      incremental_update srcEven 2 4 7 = full_update srcEven 2 7 :=
  ⟨by decide, by decide, (c6_incremental_merge srcEven 2 4 7 (by decide) (by decide)).1⟩

/-
Extremum detection: rsi_component.py, find_peaks_troughs (lines 39 to
107).  The series has the default positional index, so idxmax gives the
position of the first occurrence of the window maximum and
series.index.get_loc is the identity.  Python range(0, stop, step) with a
possibly nonpositive stop is pyRange with the truncated natural stop
s.length + 1 - window.  An idxmax call on an empty window (only possible
when window = 0) raises ValueError, modelled by none.
-/

/-- Position of the first occurrence of the maximum of s over the listed
positions, given the running best; mirrors pandas idxmax scanning left to
right and replacing only on a strictly larger value. -/
def argFirstMaxAux (s : List ℚ) (best : ℕ) : List ℕ → ℕ
  | [] => best
  | i :: rest => argFirstMaxAux s (if s.getD best 0 < s.getD i 0 then i else best) rest

/-- idxmax over the window positions: none on an empty window. -/
def argFirstMax (s : List ℚ) : List ℕ → Option ℕ
  | [] => none
  | i :: rest => some (argFirstMaxAux s i rest)

/-- Position of the first occurrence of the minimum, as idxmin. -/
def argFirstMinAux (s : List ℚ) (best : ℕ) : List ℕ → ℕ
  | [] => best
  | i :: rest => argFirstMinAux s (if s.getD i 0 < s.getD best 0 then i else best) rest

/-- idxmin over the window positions: none on an empty window. -/
def argFirstMin (s : List ℚ) : List ℕ → Option ℕ
  | [] => none
  | i :: rest => some (argFirstMinAux s i rest)

/-- The minimum-distance test against the last accepted extremum, with
Python integer subtraction: accept when the list is empty or
idx - last >= min_distance. -/
def distOk (l : List ℕ) (idx md : ℕ) : Bool :=
  match l.getLast? with
  | none => true
  | some last => decide ((md : ℤ) ≤ (idx : ℤ) - (last : ℤ))

/-- The full acceptance test for a candidate peak: central region,
minimum distance, interior position, and both neighbors not above it. -/
def peakOk (s : List ℚ) (n window start md : ℕ) (peaks : List ℕ) (idx : ℕ) : Bool :=
  decide (start + window / 4 ≤ idx) && decide (idx ≤ start + 3 * window / 4) &&
  distOk peaks idx md &&
  decide (0 < idx) && decide (idx < n - 1) &&
  decide (s.getD (idx - 1) 0 ≤ s.getD idx 0) && decide (s.getD (idx + 1) 0 ≤ s.getD idx 0)

/-- The acceptance test for a candidate trough, with neighbors not below. -/
def troughOk (s : List ℚ) (n window start md : ℕ) (troughs : List ℕ) (idx : ℕ) : Bool :=
  decide (start + window / 4 ≤ idx) && decide (idx ≤ start + 3 * window / 4) &&
  distOk troughs idx md &&
  decide (0 < idx) && decide (idx < n - 1) &&
  decide (s.getD idx 0 ≤ s.getD (idx - 1) 0) && decide (s.getD idx 0 ≤ s.getD (idx + 1) 0)

/-- One iteration of the sliding-window loop at a given start. -/
def ptStep (s : List ℚ) (window md n : ℕ) (st : List ℕ × List ℕ) (start : ℕ) :
    Option (List ℕ × List ℕ) :=
  match argFirstMax s (List.range' start window), argFirstMin s (List.range' start window) with
  | some gmax, some gmin =>
    some (if peakOk s n window start md st.1 gmax then st.1 ++ [gmax] else st.1,
      if troughOk s n window start md st.2 gmin then st.2 ++ [gmin] else st.2)
  | _, _ => none

/-- The sliding-window loop over the start positions. -/
def ptLoop (s : List ℚ) (window md n : ℕ) :
    List ℕ → List ℕ × List ℕ → Option (List ℕ × List ℕ)
  | [], st => some st
  | start :: rest, st =>
    match ptStep s window md n st start with
    | none => none
    | some st2 => ptLoop s window md n rest st2

/-- Python range(0, stop, step) for a positive step. -/
def pyRange (stop step : ℕ) : List ℕ :=
  (List.range ((stop + step - 1) / step)).map (· * step)

/-- sorted(list(set(l))): the distinct values in increasing order. -/
def finalize (l : List ℕ) : List ℕ := List.insertionSort (· ≤ ·) l.dedup

/-- rsi_component.find_peaks_troughs.  none models the ValueError raised
by idxmax on an empty window. -/
def find_peaks_troughs (s : List ℚ) (window min_distance : ℕ) :
    Option (List ℕ × List ℕ) :=
  match ptLoop s window min_distance s.length
      (pyRange (s.length + 1 - window) (max 1 (min_distance / 3))) ([], []) with
  | none => none
  | some st => some (finalize st.1, finalize st.2)

/-- An accepted peak position: strictly interior and not below either
immediate neighbor. -/
def isLocalPeak (s : List ℚ) (n p : ℕ) : Prop :=
  0 < p ∧ p < n - 1 ∧ s.getD (p - 1) 0 ≤ s.getD p 0 ∧ s.getD (p + 1) 0 ≤ s.getD p 0

/-- An accepted trough position: strictly interior and not above either
immediate neighbor. -/
def isLocalTrough (s : List ℚ) (n p : ℕ) : Prop :=
  0 < p ∧ p < n - 1 ∧ s.getD p 0 ≤ s.getD (p - 1) 0 ∧ s.getD p 0 ≤ s.getD (p + 1) 0

/-- Consecutive accepted extrema spaced at least md apart. -/
def spaced (md : ℕ) (l : List ℕ) : Prop := l.Chain' (fun a b => a + md ≤ b)

lemma spaced_append {md : ℕ} {l : List ℕ} {x : ℕ} (h : spaced md l)
    (hx : distOk l x md = true) : spaced md (l ++ [x]) := by
  rw [spaced, List.chain'_append]
  refine ⟨h, List.chain'_singleton x, ?_⟩
  intro y hy z hz
  have hy2 : l.getLast? = some y := hy
  simp only [List.head?_cons, Option.mem_def, Option.some.injEq] at hz
  subst hz
  unfold distOk at hx
  rw [hy2] at hx
  have := of_decide_eq_true hx
  omega

lemma peakOk_props {s : List ℚ} {n window start md : ℕ} {peaks : List ℕ} {idx : ℕ}
    (h : peakOk s n window start md peaks idx = true) :
    isLocalPeak s n idx ∧ distOk peaks idx md = true := by
  unfold peakOk at h
  simp only [Bool.and_eq_true, decide_eq_true_eq] at h
  obtain ⟨⟨⟨⟨⟨⟨_, _⟩, hdist⟩, hpos⟩, hlt⟩, hn1⟩, hn2⟩ := h
  exact ⟨⟨hpos, hlt, hn1, hn2⟩, hdist⟩

lemma troughOk_props {s : List ℚ} {n window start md : ℕ} {troughs : List ℕ} {idx : ℕ}
    (h : troughOk s n window start md troughs idx = true) :
    isLocalTrough s n idx ∧ distOk troughs idx md = true := by
  unfold troughOk at h
  simp only [Bool.and_eq_true, decide_eq_true_eq] at h
  obtain ⟨⟨⟨⟨⟨⟨_, _⟩, hdist⟩, hpos⟩, hlt⟩, hn1⟩, hn2⟩ := h
  exact ⟨⟨hpos, hlt, hn1, hn2⟩, hdist⟩

lemma ptStep_inv {s : List ℚ} {window md n : ℕ} {st : List ℕ × List ℕ} (start : ℕ)
    (hw : 0 < window)
    (h1 : spaced md st.1) (h2 : spaced md st.2)
    (h3 : ∀ p ∈ st.1, isLocalPeak s n p) (h4 : ∀ p ∈ st.2, isLocalTrough s n p) :
    ∃ st2, ptStep s window md n st start = some st2 ∧
      spaced md st2.1 ∧ spaced md st2.2 ∧
      (∀ p ∈ st2.1, isLocalPeak s n p) ∧ (∀ p ∈ st2.2, isLocalTrough s n p) := by
  have hne : List.range' start window ≠ [] := by
    simp [List.range'_ne_nil, hw.ne']
  obtain ⟨i, rest, hcons⟩ := List.exists_cons_of_ne_nil hne
  refine ⟨_, by rw [ptStep, hcons, argFirstMax, argFirstMin], ?_, ?_, ?_, ?_⟩
  · dsimp only
    split_ifs with hacc
    · exact spaced_append h1 (peakOk_props hacc).2
    · exact h1
  · dsimp only
    split_ifs with hacc
    · exact spaced_append h2 (troughOk_props hacc).2
    · exact h2
  · dsimp only
    split_ifs with hacc
    · intro p hp
      rcases List.mem_append.mp hp with hp | hp
      · exact h3 p hp
      · rw [List.mem_singleton.mp hp]
        exact (peakOk_props hacc).1
    · exact h3
  · dsimp only
    split_ifs with hacc
    · intro p hp
      rcases List.mem_append.mp hp with hp | hp
      · exact h4 p hp
      · rw [List.mem_singleton.mp hp]
        exact (troughOk_props hacc).1
    · exact h4

lemma ptLoop_inv (s : List ℚ) (window md n : ℕ) (hw : 0 < window) :
    ∀ (starts : List ℕ) (st : List ℕ × List ℕ),
      spaced md st.1 → spaced md st.2 →
      (∀ p ∈ st.1, isLocalPeak s n p) → (∀ p ∈ st.2, isLocalTrough s n p) →
      ∃ st2, ptLoop s window md n starts st = some st2 ∧
        spaced md st2.1 ∧ spaced md st2.2 ∧
        (∀ p ∈ st2.1, isLocalPeak s n p) ∧ (∀ p ∈ st2.2, isLocalTrough s n p) := by
  intro starts
  induction starts with
  | nil =>
    intro st h1 h2 h3 h4
    exact ⟨st, rfl, h1, h2, h3, h4⟩
  | cons a rest ih =>
    intro st h1 h2 h3 h4
    obtain ⟨st2, hstep, g1, g2, g3, g4⟩ := ptStep_inv a hw h1 h2 h3 h4
    obtain ⟨st3, hloop, k1, k2, k3, k4⟩ := ih st2 g1 g2 g3 g4
    refine ⟨st3, ?_, k1, k2, k3, k4⟩
    rw [ptLoop, hstep]
    exact hloop

lemma finalize_mem {l : List ℕ} {x : ℕ} (h : x ∈ finalize l) : x ∈ l := by
  unfold finalize at h
  exact List.mem_dedup.mp ((List.perm_insertionSort (· ≤ ·) l.dedup).mem_iff.mp h)

lemma finalize_pairwise_lt (l : List ℕ) : (finalize l).Pairwise (· < ·) := by
  have hs : (finalize l).Pairwise (· ≤ ·) := List.sorted_insertionSort (· ≤ ·) l.dedup
  have hn : (finalize l).Pairwise (· ≠ ·) :=
    ((List.perm_insertionSort (· ≤ ·) l.dedup).nodup_iff).mpr l.nodup_dedup
  exact (hs.and hn).imp fun hab => lt_of_le_of_ne hab.1 hab.2

lemma finalize_spaced {md : ℕ} {l : List ℕ} (h : spaced md l) :
    spaced md (finalize l) := by
  rcases Nat.eq_zero_or_pos md with h0 | h0
  · subst h0
    have hs : (finalize l).Pairwise (· ≤ ·) := List.sorted_insertionSort (· ≤ ·) l.dedup
    exact (hs.imp fun hab => by omega).chain'
  · have hlt : l.Pairwise (· < ·) := by
      haveI : IsTrans ℕ (fun a b => a + md ≤ b) := ⟨fun a b c hab hbc => by omega⟩
      exact (List.chain'_iff_pairwise.mp h).imp fun hab => by omega
    have hnodup : l.Nodup := hlt.imp fun hab => Nat.ne_of_lt hab
    have hsorted : l.Pairwise (· ≤ ·) := hlt.imp fun hab => le_of_lt hab
    have : finalize l = l := by
      rw [finalize, List.dedup_eq_self.mpr hnodup]
      exact List.Sorted.insertionSort_eq hsorted
    rw [this]
    exact h

/-- Claim C7, amended: for every series, every positive window and every
min_distance, find_peaks_troughs succeeds and returns strictly
increasing, duplicate-free index lists whose members are interior local
extrema (peaks not below, troughs not above, their immediate neighbors)
with consecutive same-kind extrema at least min_distance apart.  For
window = 0 the function raises instead of returning lists. -/
theorem c7_extrema_invariants (s : List ℚ) (window min_distance : ℕ)
    (hw : 1 ≤ window) :
    ∃ peaks troughs,
      find_peaks_troughs s window min_distance = some (peaks, troughs) ∧
      peaks.Pairwise (· < ·) ∧ troughs.Pairwise (· < ·) ∧
      spaced min_distance peaks ∧ spaced min_distance troughs ∧
      (∀ p ∈ peaks, isLocalPeak s s.length p) ∧
      (∀ p ∈ troughs, isLocalTrough s s.length p) := by
  obtain ⟨st, hloop, g1, g2, g3, g4⟩ :=
    ptLoop_inv s window min_distance s.length hw
      (pyRange (s.length + 1 - window) (max 1 (min_distance / 3))) ([], [])
      List.chain'_nil List.chain'_nil (by simp) (by simp)
  refine ⟨finalize st.1, finalize st.2, ?_, finalize_pairwise_lt st.1,
    finalize_pairwise_lt st.2, finalize_spaced g1, finalize_spaced g2,
    fun p hp => g3 p (finalize_mem hp), fun p hp => g4 p (finalize_mem hp)⟩
  rw [find_peaks_troughs, hloop]

/-- Claim C7 counterexample: with window 0 every window slice is empty,
idxmax raises, and no index lists are returned at all. -/
theorem c7_counterexample : find_peaks_troughs [1, 2, 3] 0 1 = none := by decide

/-- Witness for c7_extrema_invariants on a three-bar series with
window 1. -/
theorem c7_witness :
    ∃ peaks troughs, find_peaks_troughs [1, 2, 3] 1 1 = some (peaks, troughs) ∧
      peaks.Pairwise (· < ·) := by
  obtain ⟨pk, tr, heq, hp, _⟩ := c7_extrema_invariants [1, 2, 3] 1 1 (le_refl 1)
  exact ⟨pk, tr, heq, hp⟩

end PulseTrader
